import Mathlib

/-!
# Api-Tester-C: a shallow embedding of `api-tester.c` / `api-tester.h`

The C program is a multi-threaded HTTP load generator.  This file embeds the
parts of it that the specification makes claims about:

* the work partition and the per-thread offsets computed in `main`
  (`api-tester.c`, lines 261-282);
* the request loop of `fetch_data` (lines 116-185);
* `http_status_phrase` and `status_code_map` (lines 27-40, header lines 78-110);
* `header_callback` / `body_callback` (lines 65-97);
* `parse_int` and the argument loop of `main` (lines 49-61, 187-230).

Conventions.  C `int`/`long` values are `Int`; `/` and `%` on them are the
truncating `Int.tdiv` / `Int.tmod`.  `size_t` values are `Nat` reduced modulo
`2 ^ 64`.  A `double` is idealised as a rational number.  A pointer into the
shared `responseTimes` array is the index of the element it points to.  A
`char *` that may be `NULL` is an `Option`.  Everything the program obtains
from its environment (libcurl, the clock, `malloc`) is an explicit input.
-/

namespace ApiTester

/-! ## Constants of `api-tester.h` -/

/-- Header line 18: `#define MAX_HEADERS 50`. -/
def MAX_HEADERS : Int := 50

/-- Header line 19: `#define MAX_BODY_PARTS 1`. -/
def MAX_BODY_PARTS : Int := 1

/-- Header line 20: `#define MAX_RESPONSE_CODE_LENGTH 4`. -/
def MAX_RESPONSE_CODE_LENGTH : Nat := 4

/-- Header line 21: `#define MAX_RESPONSE_PHRASE_LENGTH 41`. -/
def MAX_RESPONSE_PHRASE_LENGTH : Nat := 41

/-! ## The work partition of `main` (lines 261-282) -/

/-- Line 261: `long callsPerThread = totalCalls / numThreads;`.  C leaves the
division by zero undefined; the theorems below only use it with a positive
`numThreads`. -/
def callsPerThread (totalCalls numThreads : Int) : Int :=
  Int.tdiv totalCalls numThreads

/-- Line 262: `long remainderCalls = totalCalls % numThreads;`. -/
def remainderCalls (totalCalls numThreads : Int) : Int :=
  Int.tmod totalCalls numThreads

/-- Line 269: `long numCalls = callsPerThread + (i < remainderCalls ? 1 : 0);`. -/
def numCalls (totalCalls numThreads i : Int) : Int :=
  callsPerThread totalCalls numThreads +
    (if i < remainderCalls totalCalls numThreads then 1 else 0)

/-- Line 273: `data->responseTimes = &responseTimes[i * numCalls];`, the index
of the first slot of the shared buffer that thread `i` is handed. -/
def responseTimesIndex (totalCalls numThreads i : Int) : Int :=
  i * numCalls totalCalls numThreads i

/-- The fields of `thread_data_t` (header lines 43-53) that `fetch_data`
reads.  `responseTimes` is the index into the shared buffer; `pCurl` is the
index of the easy handle; the mutex carries no data. -/
structure thread_data_t where
  pCurl : Int
  responseTimes : Int
  url : String
  sleepTime : Int
  keepConnectsOpen : Int
  reuseConnects : Int
  threadID : Int
  numCalls : Int
deriving DecidableEq, Repr

/-- The locals of `main` once the argument loop is over (lines 194-201). -/
structure RunConfig where
  url : String
  totalCalls : Int
  numThreads : Int
  sleepTime : Int
  requestTimeOut : Int
  connectTimeOut : Int
  reuseConnects : Int
  keepConnectsOpen : Int
deriving DecidableEq, Repr

/-- Body of the loop of lines 267-282 for thread `i`: the `thread_data_t`
that is handed to `pthread_create`. -/
def threadData (cfg : RunConfig) (i : Int) : thread_data_t :=
  { pCurl := i
    responseTimes := responseTimesIndex cfg.totalCalls cfg.numThreads i
    url := cfg.url
    sleepTime := cfg.sleepTime
    keepConnectsOpen := cfg.keepConnectsOpen
    reuseConnects := cfg.reuseConnects
    threadID := i
    numCalls := numCalls cfg.totalCalls cfg.numThreads i }

/-- The loop `for (long i = 0; i < numThreads; i++)` of lines 267-282: one
`thread_data_t` per thread, in creation order. -/
def dispatch (cfg : RunConfig) : List thread_data_t :=
  (List.range cfg.numThreads.toNat).map (fun (i : Nat) => threadData cfg (i : Int))

/-- The call counts handed out by the partition, thread by thread. -/
def assignments (totalCalls numThreads : Int) : List Int :=
  (List.range numThreads.toNat).map (fun (i : Nat) => numCalls totalCalls numThreads (i : Int))

/-- The sum of the call counts assigned to threads `0 .. i-1`. -/
def priorCalls (totalCalls numThreads : Int) (i : Nat) : Int :=
  ((List.range i).map (fun (k : Nat) => numCalls totalCalls numThreads (k : Int))).sum

/-- The indices of the shared buffer that thread `i` writes: `fetch_data`
stores to `responseTimes[j]` for `j = 0 .. numCalls-1` (lines 128, 168), and
`responseTimes` points at `responseTimesIndex` (line 273). -/
def threadSlots (totalCalls numThreads : Int) (i : Nat) : List Int :=
  (List.range (numCalls totalCalls numThreads (i : Int)).toNat).map
    (fun (j : Nat) => responseTimesIndex totalCalls numThreads (i : Int) + (j : Int))

/-- Every index of the shared buffer written during a full run, thread by
thread. -/
def writtenSlots (totalCalls numThreads : Int) : List Int :=
  ((List.range numThreads.toNat).map (threadSlots totalCalls numThreads)).flatten

/-! ## `http_status_phrase` (lines 27-40) and `status_code_map` (header lines 78-110) -/

/-- Header lines 25-28: one row of the status table. -/
structure status_code_t where
  code : Int
  phrase : String
deriving DecidableEq, Repr

/-- Header lines 78-108: the status table, in source order. -/
def status_code_map : List status_code_t :=
  [ ⟨200, "OK"⟩,
    ⟨201, "Created"⟩,
    ⟨202, "Accepted"⟩,
    ⟨204, "No Content"⟩,
    ⟨205, "Reset Content"⟩,
    ⟨206, "Partial Content"⟩,
    ⟨400, "Bad Request"⟩,
    ⟨401, "Unauthorized"⟩,
    ⟨403, "Forbidden"⟩,
    ⟨404, "Not Found"⟩,
    ⟨405, "Method Not Allowed"⟩,
    ⟨406, "Not Acceptable"⟩,
    ⟨408, "Request Timeout"⟩,
    ⟨409, "Conflict"⟩,
    ⟨412, "Precondition Failed"⟩,
    ⟨413, "Payload Too Large"⟩,
    ⟨417, "Expectation Failed"⟩,
    ⟨421, "Misdirected Request"⟩,
    ⟨422, "Unprocessable Content"⟩,
    ⟨428, "Precondition Required"⟩,
    ⟨429, "Too Many Requests"⟩,
    ⟨431, "Request Header Fields Too Large"⟩,
    ⟨500, "Internal Server Error"⟩,
    ⟨502, "Bad Gateway"⟩,
    ⟨503, "Service Unavailable"⟩,
    ⟨504, "Gateway Timeout"⟩,
    ⟨505, "HTTP Version Not Supported"⟩,
    ⟨511, "Network Authentication Required"⟩ ]

/-- Header line 110: `sizeof(status_code_map) / sizeof(status_code_t)`. -/
def statusCodeMapSize : Int := status_code_map.length

/-- The C runtime's `ltoa(value, buffer, 10)` (line 29): the decimal digits of
`value`, preceded by `-` when it is negative. -/
def ltoa (value : Int) : String :=
  if value < 0 then "-" ++ Nat.repr value.natAbs else Nat.repr value.natAbs

/-- Lines 31-39: the scan `for (int i = 0; i < statusCodeMapSize; i++)` over
the rows that are still ahead; `statusCodeMapSize` is the number of rows, so
the scan reaches every row.  A matching row appends `" "` and its phrase
and returns; running off the end appends `" Unknown Status Code"`. -/
def http_status_phrase_scan (responsePhrase : String) (statusCode : Int) :
    List status_code_t → String
  | [] => responsePhrase ++ " Unknown Status Code"
  | row :: rest =>
    if row.code = statusCode then (responsePhrase ++ " ") ++ row.phrase
    else http_status_phrase_scan responsePhrase statusCode rest

/-- Lines 27-40: the content of `responsePhrase` when `http_status_phrase`
returns. -/
def http_status_phrase (statusCode : Int) : String :=
  http_status_phrase_scan (ltoa statusCode) statusCode status_code_map

/-- The resolver as the specification words it: the decimal rendering, one
space, then the phrase of the first row with that code, or the fallback
literal when there is none. -/
def specStatusPhrase (statusCode : Int) : String :=
  toString statusCode ++ " " ++
    (match status_code_map.find? (fun row => decide (row.code = statusCode)) with
     | some row => row.phrase
     | none => "Unknown Status Code")

/-! ## `time_diff_ms` (lines 43-46) and `fetch_data` (lines 116-185) -/

/-- The two fields of `struct timespec`. -/
structure timespec where
  tv_sec : Int
  tv_nsec : Int
deriving DecidableEq, Repr

/-- Lines 43-46, with `double` arithmetic idealised as exact. -/
def time_diff_ms (finish start : timespec) : Rat :=
  ((finish.tv_sec : Rat) - (start.tv_sec : Rat)) * 1000 +
    ((finish.tv_nsec - start.tv_nsec : Int) : Rat) / 1000000

/-- The value of `CURLE_OK` in libcurl. -/
def CURLE_OK : Int := 0

/-- What the environment supplies during one iteration of the request loop:
the clock reading of line 153, the `CURLcode` returned by `curl_easy_perform`
(line 154), the clock reading of line 155 and the value that
`curl_easy_getinfo` stores into `responseCode` (line 158). -/
structure Transfer where
  start : timespec
  res : Int
  finish : timespec
  responseCode : Int
deriving DecidableEq, Repr

/-- One line of output: `printf` of line 164 or `fprintf(stderr, ...)` of line
166, with the arguments of the format string. -/
inductive LogLine where
  | success (threadID : Int) (i : Int) (responsePhrase : String) (responseTime : Rat)
  | failed (threadID : Int) (i : Int) (errorText : String) (responseTime : Rat)
deriving DecidableEq, Repr

/-- The effects of a worker so far: how many times `curl_easy_perform` has
been called, the lines printed, the stores into the shared buffer (index and
value) and the arguments of `usleep`, each in program order. -/
structure WorkerState where
  performed : Nat
  log : List LogLine
  stores : List (Int × Rat)
  sleeps : List Int
deriving DecidableEq, Repr

/-- Lines 129-182: the body of the request loop for loop counter `i`.  The
`k`-th call of `curl_easy_perform` on this handle receives `transport k`.
The `malloc` of line 131 is taken to succeed.
The header and body captures are locals of the iteration, reset at lines
138-139 and released at lines 172-179; they reach neither the output nor the
shared buffer.  `strerror` is `curl_easy_strerror`. -/
def fetch_iteration (strerror : Int → String) (data : thread_data_t)
    (transport : Nat → Transfer) (st : WorkerState) (i : Int) : WorkerState :=
  let t := transport st.performed
  let responseTime := time_diff_ms t.finish t.start
  let responsePhrase := http_status_phrase t.responseCode
  let line :=
    if t.res = CURLE_OK then
      LogLine.success data.threadID i responsePhrase responseTime
    else
      LogLine.failed data.threadID i (strerror t.res) responseTime
  { performed := st.performed + 1
    log := st.log ++ [line]
    stores := st.stores ++ [(data.responseTimes + i, responseTime)]
    sleeps := st.sleeps ++ [data.sleepTime * 1000] }

/-- Lines 116-185: the loop `for (int i = 0; i < numCalls; i++)`. -/
def fetch_data (strerror : Int → String) (data : thread_data_t)
    (transport : Nat → Transfer) : WorkerState :=
  (List.range data.numCalls.toNat).foldl
    (fun st (i : Nat) => fetch_iteration strerror data transport st (i : Int))
    { performed := 0, log := [], stores := [], sleeps := [] }

/-- The line that the specification asks for request `k` of a worker. -/
def expectedLine (strerror : Int → String) (data : thread_data_t)
    (transport : Nat → Transfer) (k : Nat) : LogLine :=
  if (transport k).res = CURLE_OK then
    LogLine.success data.threadID (k : Int)
      (http_status_phrase (transport k).responseCode)
      (time_diff_ms (transport k).finish (transport k).start)
  else
    LogLine.failed data.threadID (k : Int) (strerror (transport k).res)
      (time_diff_ms (transport k).finish (transport k).start)

/-- A worker with three calls that is handed index 6 of the shared buffer. -/
def sampleWorker : thread_data_t :=
  { pCurl := 2, responseTimes := 6, url := "http://h", sleepTime := 0,
    keepConnectsOpen := 0, reuseConnects := 0, threadID := 2, numCalls := 3 }

/-- A transport whose second request times out (`CURLE_OPERATION_TIMEDOUT` is
28) and whose other requests succeed with status 200; each starts at
5 s 999000000 ns and ends at 6 s 1000000 ns. -/
def sampleTransport (k : Nat) : Transfer :=
  { start := ⟨5, 999000000⟩, res := if k = 1 then 28 else 0, finish := ⟨6, 1000000⟩,
    responseCode := 200 }

/-- Lines 267-287: every worker runs `fetch_data` on the `thread_data_t` that
`main` built for it; `transport i` is what thread `i` meets.  The result
lists the workers in creation order. -/
def fullRun (strerror : Int → String) (cfg : RunConfig)
    (transport : Int → Nat → Transfer) : List WorkerState :=
  (dispatch cfg).map (fun d => fetch_data strerror d (transport d.threadID))

/-- The indices of the shared buffer stored to during a full run. -/
def storedIndices (strerror : Int → String) (cfg : RunConfig)
    (transport : Int → Nat → Transfer) : List Int :=
  ((fullRun strerror cfg transport).map (fun w => w.stores.map Prod.fst)).flatten

/-! ## `header_callback` and `body_callback` (lines 65-97) -/

/-- The product of two `size_t` values, as the C expression computes it. -/
def size_mul (a b : Nat) : Nat := (a * b) % 2 ^ 64

/-- A `char *` returned by `malloc` and filled in: `none` is `NULL`, `some bs`
points at the bytes `bs`. -/
abbrev CharPtr := Option (List Nat)

/-- Header lines 31-34.  `headers j` is the content of `headers[j]`; only
`j < MAX_HEADERS` exists in the C array. -/
structure header_t where
  headers : Nat → CharPtr
  count : Int

/-- Header lines 37-40.  `body j` is the content of `body[j]`; only
`j < MAX_BODY_PARTS` exists in the C array. -/
structure body_t where
  body : Nat → CharPtr
  count : Int

/-- One delivery from the transport to a receive callback: the arguments
`buffer`, `charSize`, `dataSize` and whether the `malloc` inside the callback
succeeds. -/
structure Chunk where
  buffer : List Nat
  charSize : Nat
  dataSize : Nat
  mallocOk : Bool
deriving DecidableEq, Repr

/-- The `n + 1` bytes behind `p` after `strncpy(p, buffer, n); p[n] = 0`
(lines 73-74, 91-92): the bytes of `buffer` up to its first zero byte, at most
`n` of them, padded with zero bytes. -/
def strncpy_terminated (buffer : List Nat) (n : Nat) : List Nat :=
  let copied := (buffer.take n).takeWhile (fun b => b != 0)
  copied ++ List.replicate (n - copied.length) 0 ++ [0]

/-- Store `p` to element `idx` of an array of `bound` pointers; `none` when
`idx` is not an index of the array. -/
def storeSlot (bound : Int) (slots : Nat → CharPtr) (idx : Int) (p : CharPtr) :
    Option (Nat → CharPtr) :=
  if 0 ≤ idx ∧ idx < bound then some (Function.update slots idx.toNat p) else none

/-- Lines 65-80.  The result is the capture afterwards and the returned
`size_t`; `none` stands for a store outside `headers[0 .. MAX_HEADERS-1]`. -/
def header_callback (c : Chunk) (headerData : header_t) : Option (header_t × Nat) :=
  let headerLength := size_mul c.dataSize c.charSize
  if headerData.count < MAX_HEADERS then
    let p : CharPtr :=
      if c.mallocOk then some (strncpy_terminated c.buffer headerLength) else none
    match storeSlot MAX_HEADERS headerData.headers headerData.count p with
    | none => none
    | some slots =>
      if p.isSome then
        some ({ headers := slots, count := headerData.count + 1 }, headerLength)
      else
        some ({ headers := slots, count := headerData.count }, headerLength)
  else
    some (headerData, headerLength)

/-- Lines 83-97.  The result is the capture afterwards and the returned
`size_t`; `none` stands for a store outside `body[0 .. MAX_BODY_PARTS-1]`. -/
def body_callback (c : Chunk) (bodyData : body_t) : Option (body_t × Nat) :=
  let bodyLength := size_mul c.dataSize c.charSize
  if bodyData.count < MAX_BODY_PARTS then
    let p : CharPtr :=
      if c.mallocOk then some (strncpy_terminated c.buffer bodyLength) else none
    match storeSlot MAX_BODY_PARTS bodyData.body bodyData.count p with
    | none => none
    | some slots =>
      if p.isSome then
        some ({ body := slots, count := bodyData.count + 1 }, bodyLength)
      else
        some ({ body := slots, count := bodyData.count }, bodyLength)
  else
    some (bodyData, bodyLength)

/-- The transport delivering a sequence of header chunks to `header_callback`,
one call per chunk; the result is the final capture and the values returned,
in order. -/
def deliverHeaders : List Chunk → header_t → Option (header_t × List Nat)
  | [], headerData => some (headerData, [])
  | c :: cs, headerData =>
    match header_callback c headerData with
    | none => none
    | some (next, ret) =>
      match deliverHeaders cs next with
      | none => none
      | some (last, rets) => some (last, ret :: rets)

/-- The transport delivering a sequence of body chunks to `body_callback`. -/
def deliverBody : List Chunk → body_t → Option (body_t × List Nat)
  | [], bodyData => some (bodyData, [])
  | c :: cs, bodyData =>
    match body_callback c bodyData with
    | none => none
    | some (next, ret) =>
      match deliverBody cs next with
      | none => none
      | some (last, rets) => some (last, ret :: rets)

/-- The chunks a header capture holds: `headers[0 .. count-1]`, the pointers
that `fetch_data` releases at lines 172-175. -/
def header_t.captured (h : header_t) : List CharPtr :=
  (List.range h.count.toNat).map h.headers

/-- The chunks a body capture holds: `body[0 .. count-1]`, the pointers that
`fetch_data` releases at lines 176-179. -/
def body_t.captured (b : body_t) : List CharPtr :=
  (List.range b.count.toNat).map b.body

/-! ## `parse_int` (lines 49-61) and the argument handling of `main` (lines 187-230) -/

/-- The value of `EXIT_SUCCESS` in `<stdlib.h>`. -/
def EXIT_SUCCESS : Int := 0

/-- The value of `EXIT_FAILURE` in `<stdlib.h>`. -/
def EXIT_FAILURE : Int := 1

/-- The value of `LONG_MAX` for a 64-bit `long`. -/
def LONG_MAX : Int := 2 ^ 63 - 1

/-- The value of `LONG_MIN` for a 64-bit `long`. -/
def LONG_MIN : Int := -(2 ^ 63)

/-- The value of `ERANGE` in `<errno.h>`. -/
def ERANGE : Int := 34

/-- The predicate `isspace` of `<ctype.h>` in the C locale. -/
def isspace (c : Char) : Bool :=
  c == ' ' || c == '\t' || c == '\n' || c == '\x0b' || c == '\x0c' || c == '\r'

/-- What a call of `strtol` leaves behind: the value returned, the distance
`pEndStr - str` and `errno`. -/
structure strtol_result where
  val : Int
  endOffset : Nat
  errno : Int
deriving DecidableEq, Repr

/-- The C library's `strtol(str, &pEndStr, 10)` (line 52, with `errno` cleared
at line 51): optional white space, an optional sign, decimal digits.  Without
digits nothing is consumed; a value outside `long` is clamped and sets
`ERANGE`. -/
def strtol (str : List Char) : strtol_result :=
  let ws := str.takeWhile isspace
  let afterWs := str.dropWhile isspace
  let negative := afterWs.head? == some '-'
  let signLen := if afterWs.head? == some '-' || afterWs.head? == some '+' then 1 else 0
  let digits := (afterWs.drop signLen).takeWhile Char.isDigit
  if digits.isEmpty then
    { val := 0, endOffset := 0, errno := 0 }
  else
    let magnitude : Int :=
      digits.foldl (fun acc d => acc * 10 + ((d.toNat - '0'.toNat : Nat) : Int)) 0
    let value := if negative then -magnitude else magnitude
    let endOffset := ws.length + signLen + digits.length
    if LONG_MAX < value then { val := LONG_MAX, endOffset := endOffset, errno := ERANGE }
    else if value < LONG_MIN then { val := LONG_MIN, endOffset := endOffset, errno := ERANGE }
    else { val := value, endOffset := endOffset, errno := 0 }

/-- The conversion of a `long` to `int` at `return val;` (line 60): reduction
into the 32-bit two's-complement range. -/
def longToInt (v : Int) : Int := (v + 2 ^ 31) % 2 ^ 32 - 2 ^ 31

/-- Lines 49-61.  `none` is the path that prints the error and calls
`exit(EXIT_FAILURE)`. -/
def parse_int (str : String) : Option Int :=
  let r := strtol str.toList
  if r.errno ≠ 0 ∨ r.endOffset < str.toList.length ∨ r.endOffset = 0 then none
  else some (longToInt r.val)

/-- The locals of `main` that the argument loop updates (lines 194-201). -/
structure Locals where
  url : Option String
  totalCalls : Int
  numThreads : Int
  sleepTime : Int
  requestTimeOut : Int
  connectTimeOut : Int
  reuseConnects : Int
  keepConnectsOpen : Int
deriving DecidableEq, Repr

/-- Lines 194-201: the initial values, `connectTimeOut` being computed from
the initial `requestTimeOut` at line 199. -/
def initialLocals : Locals :=
  let requestTimeOut : Int := 10000
  { url := none
    totalCalls := 10000
    numThreads := 12
    sleepTime := 0
    requestTimeOut := requestTimeOut
    connectTimeOut := requestTimeOut * 3
    reuseConnects := 0
    keepConnectsOpen := 0 }

/-- Lines 219-223: the two options without a value; any other argument is
skipped. -/
def flagArgument (a : String) (l : Locals) : Locals :=
  if a = "-reuseConnects" then { l with reuseConnects := 1 }
  else if a = "-keepConnectsOpen" then { l with keepConnectsOpen := 1 }
  else l

/-- Lines 203-224: the loop `for (int i = 1; i < argc; i++)` over the
arguments from `argv[i]` on.  `isFirst` is `i == 1`; the tail being non-empty
is `i + 1 < argc`, and then its head is `argv[++i]`.  `Except.error` carries
the exit status when the loop leaves `main`. -/
def argLoop (isFirst : Bool) : List String → Locals → Except Int Locals
  | [], l => .ok l
  | a :: rest, l =>
    if a = "-?" ∨ a = "--help" then .error EXIT_SUCCESS
    else if isFirst then argLoop false rest { l with url := some a }
    else
      match rest with
      | [] => .ok (flagArgument a l)
      | v :: rest' =>
        if a = "-totalCalls" then
          match parse_int v with
          | none => .error EXIT_FAILURE
          | some x => argLoop false rest' { l with totalCalls := x }
        else if a = "-numThreads" then
          match parse_int v with
          | none => .error EXIT_FAILURE
          | some x => argLoop false rest' { l with numThreads := x }
        else if a = "-sleepTime" then
          match parse_int v with
          | none => .error EXIT_FAILURE
          | some x => argLoop false rest' { l with sleepTime := x }
        else if a = "-requestTimeOut" then
          match parse_int v with
          | none => .error EXIT_FAILURE
          | some x => argLoop false rest' { l with requestTimeOut := x }
        else if a = "-connectTimeOut" then
          match parse_int v with
          | none => .error EXIT_FAILURE
          | some x => argLoop false rest' { l with connectTimeOut := x }
        else argLoop false (v :: rest') (flagArgument a l)

/-- The outcome of lines 187-230 of `main`: it leaves with an exit status, or
it goes on to run the test with the configuration it has parsed. -/
inductive MainResult where
  | exit (status : Int)
  | run (cfg : RunConfig)
deriving DecidableEq, Repr

/-- Lines 187-230: the check of `argc`, the argument loop and the check of the
URL (`strncmp(url, "http", 4) != 0`). -/
def main (argv : List String) : MainResult :=
  if argv.length < 2 then .exit EXIT_FAILURE
  else
    match argLoop true (argv.drop 1) initialLocals with
    | .error status => .exit status
    | .ok l =>
      match l.url with
      | none => .exit EXIT_FAILURE
      | some url =>
        if url.toList.take 4 ≠ "http".toList then .exit EXIT_FAILURE
        else
          .run { url := url
                 totalCalls := l.totalCalls
                 numThreads := l.numThreads
                 sleepTime := l.sleepTime
                 requestTimeOut := l.requestTimeOut
                 connectTimeOut := l.connectTimeOut
                 reuseConnects := l.reuseConnects
                 keepConnectsOpen := l.keepConnectsOpen }

/-- Lines 253-254: the values handed to `CURLOPT_TIMEOUT_MS` and
`CURLOPT_CONNECTTIMEOUT_MS` on every handle. -/
def curlTimeouts (cfg : RunConfig) : Int × Int :=
  (cfg.requestTimeOut, cfg.connectTimeOut)

/-- An option name occurs among the arguments. -/
def supplies (argv : List String) (option : String) : Bool :=
  argv.contains option

/-- The value of `INT_MAX` for a 32-bit `int`. -/
def INT_MAX : Int := 2 ^ 31 - 1

/-- The number that a string of decimal digits denotes. -/
def decimalValue (ds : List Char) : Nat :=
  ds.foldl (fun acc d => acc * 10 + (d.toNat - '0'.toNat)) 0

/-- The argument is written as a positive `int`: one or more decimal digits
and nothing else, denoting a number from 1 to `INT_MAX`. -/
def writtenPositiveInt (s : String) : Bool :=
  !s.toList.isEmpty && s.toList.all Char.isDigit &&
    decide (1 ≤ decimalValue s.toList) && decide ((decimalValue s.toList : Int) ≤ INT_MAX)

/-- Every argument that directly follows `-totalCalls` or `-numThreads` on the
command line is written as a positive `int`. -/
def suppliedCountsInRange (argv : List String) : Bool :=
  (argv.zip argv.tail).all (fun p =>
    !(p.1 == "-totalCalls" || p.1 == "-numThreads") || writtenPositiveInt p.2)

/-! ## Theorems: the work partition -/

theorem callsPerThread_eq (T N : Int) (hT : 0 ≤ T) (hN : 1 ≤ N) :
    callsPerThread T N = T / N := by
  unfold callsPerThread
  exact Int.tdiv_eq_ediv hT (by omega)

theorem remainderCalls_eq (T N : Int) (hT : 0 ≤ T) (hN : 1 ≤ N) :
    remainderCalls T N = T % N := by
  unfold remainderCalls
  exact Int.tmod_eq_emod hT (by omega)

theorem numCalls_eq (T N i : Int) (hT : 0 ≤ T) (hN : 1 ≤ N) :
    numCalls T N i = if i < T % N then T / N + 1 else T / N := by
  unfold numCalls
  rw [callsPerThread_eq T N hT hN, remainderCalls_eq T N hT hN]
  split <;> simp

theorem base_nonneg (T N : Int) (hT : 0 ≤ T) (hN : 1 ≤ N) : 0 ≤ T / N :=
  Int.ediv_nonneg hT (by omega)

theorem rem_bounds (T N : Int) (hN : 1 ≤ N) : 0 ≤ T % N ∧ T % N < N :=
  ⟨Int.emod_nonneg T (by omega), Int.emod_lt_of_pos T (by omega)⟩

theorem total_split (T N : Int) : N * (T / N) + T % N = T :=
  Int.ediv_add_emod T N

theorem numCalls_nonneg (T N i : Int) (hT : 0 ≤ T) (hN : 1 ≤ N) :
    0 ≤ numCalls T N i := by
  rw [numCalls_eq T N i hT hN]
  have := base_nonneg T N hT hN
  split <;> omega

theorem priorCalls_eq (T N : Int) (hT : 0 ≤ T) (hN : 1 ≤ N) (i : Nat) :
    priorCalls T N i = (i : Int) * (T / N) + min (i : Int) (T % N) := by
  induction i with
  | zero =>
    have := (rem_bounds T N hN).1
    simp [priorCalls, this]
  | succ k ih =>
    unfold priorCalls at ih ⊢
    rw [List.sum_range_succ, ih, numCalls_eq T N _ hT hN]
    push_cast
    split
    · rename_i h
      rw [min_eq_left (by omega), min_eq_left (by omega)]
      ring
    · rename_i h
      rw [min_eq_right (by omega), min_eq_right (by omega)]
      ring

theorem assignments_sum (T N : Int) (hT : 0 ≤ T) (hN : 1 ≤ N) :
    (assignments T N).sum = T := by
  have h := priorCalls_eq T N hT hN N.toNat
  unfold priorCalls at h
  unfold assignments
  rw [h]
  have hcast : ((N.toNat : Nat) : Int) = N := Int.toNat_of_nonneg (by omega)
  rw [hcast, min_eq_right (le_of_lt (rem_bounds T N hN).2)]
  exact total_split T N

theorem slot_in_bounds (T N i j : Int) (hT : 0 ≤ T) (hN : 1 ≤ N)
    (hi0 : 0 ≤ i) (hiN : i < N) (hj0 : 0 ≤ j) (hj : j < numCalls T N i) :
    0 ≤ responseTimesIndex T N i + j ∧ responseTimesIndex T N i + j < T := by
  unfold responseTimesIndex
  have hb := base_nonneg T N hT hN
  have hr := rem_bounds T N hN
  have hs := total_split T N
  rw [numCalls_eq T N i hT hN] at hj ⊢
  split at hj
  · rename_i h
    rw [if_pos h]
    constructor
    · positivity
    · have h1 : (i + 1) * (T / N + 1) ≤ T % N * (T / N + 1) :=
        mul_le_mul_of_nonneg_right (by omega) (by omega)
      have h2 : T % N * (T / N) ≤ N * (T / N) :=
        mul_le_mul_of_nonneg_right (by omega) hb
      nlinarith
  · rename_i h
    rw [if_neg h]
    constructor
    · positivity
    · have h1 : (i + 1) * (T / N) ≤ N * (T / N) :=
        mul_le_mul_of_nonneg_right (by omega) hb
      nlinarith

/-- For `0 ≤ T`, `1 ≤ N`, no assignment exceeds `T`: together with
`numCalls_nonneg` and `slot_in_bounds` this keeps every value computed at
lines 261-273 within `[0, T]`, so for an `int` total nothing wraps around. -/
theorem numCalls_le_total (T N i : Int) (hT : 0 ≤ T) (hN : 1 ≤ N) (hi : 0 ≤ i) :
    numCalls T N i ≤ T := by
  have hb := base_nonneg T N hT hN
  have hr := rem_bounds T N hN
  have hs := total_split T N
  have h1 : 1 * (T / N) ≤ N * (T / N) := mul_le_mul_of_nonneg_right hN hb
  rw [numCalls_eq T N i hT hN]
  split <;> omega

/-- The offset handed to thread `i` falls short of the calls assigned before
it by the remainder, as soon as `i` is not below the remainder. -/
theorem offset_shortfall (T N : Int) (hT : 0 ≤ T) (hN : 1 ≤ N) (i : Nat) :
    priorCalls T N i - responseTimesIndex T N (i : Int) =
      if (i : Int) < T % N then 0 else T % N := by
  rw [priorCalls_eq T N hT hN i]
  unfold responseTimesIndex
  rw [numCalls_eq T N _ hT hN]
  split
  · rw [min_eq_left (by omega)]
    ring
  · rw [min_eq_right (by omega)]
    ring

theorem numCalls_le_one_apart (T N i j : Int) (hT : 0 ≤ T) (hN : 1 ≤ N) :
    |numCalls T N i - numCalls T N j| ≤ 1 := by
  rw [numCalls_eq T N i hT hN, numCalls_eq T N j hT hN, abs_le]
  split <;> split <;> constructor <;> omega

theorem dispatch_numCalls (cfg : RunConfig) :
    (dispatch cfg).map (fun d => d.numCalls) = assignments cfg.totalCalls cfg.numThreads := by
  simp [dispatch, assignments, threadData, Function.comp_def]

/-! ## Theorems: the request loop -/

/-- The store and the elapsed time of request `k` of a worker. -/
theorem fetch_fold (strerror : Int → String) (data : thread_data_t)
    (transport : Nat → Transfer) (n : Nat) :
    (List.range n).foldl
        (fun st (i : Nat) => fetch_iteration strerror data transport st (i : Int))
        { performed := 0, log := [], stores := [], sleeps := [] } =
      { performed := n
        log := (List.range n).map (expectedLine strerror data transport)
        stores := (List.range n).map (fun (k : Nat) =>
          (data.responseTimes + (k : Int),
            time_diff_ms (transport k).finish (transport k).start))
        sleeps := List.replicate n (data.sleepTime * 1000) } := by
  induction n with
  | zero => simp
  | succ n ih =>
    rw [List.range_succ, List.foldl_append, ih]
    simp [fetch_iteration, expectedLine, List.replicate_succ', List.range_succ]

theorem fetch_data_stores_indices (strerror : Int → String) (data : thread_data_t)
    (transport : Nat → Transfer) :
    (fetch_data strerror data transport).stores.map Prod.fst =
      (List.range data.numCalls.toNat).map
        (fun (j : Nat) => data.responseTimes + (j : Int)) := by
  unfold fetch_data
  rw [fetch_fold]
  simp [Function.comp_def]

theorem storedIndices_eq (strerror : Int → String) (cfg : RunConfig)
    (transport : Int → Nat → Transfer) :
    storedIndices strerror cfg transport = writtenSlots cfg.totalCalls cfg.numThreads := by
  unfold storedIndices fullRun writtenSlots dispatch
  rw [List.map_map, List.map_map]
  congr 1
  apply List.map_congr_left
  intro i _
  simp only [Function.comp_apply]
  rw [fetch_data_stores_indices]
  rfl

theorem mem_writtenSlots (T N idx : Int) (h : idx ∈ writtenSlots T N) :
    ∃ i j : Int, 0 ≤ i ∧ i < N ∧ 0 ≤ j ∧ j < numCalls T N i ∧
      idx = responseTimesIndex T N i + j := by
  unfold writtenSlots threadSlots at h
  simp only [List.mem_flatten, List.mem_map, List.mem_range] at h
  obtain ⟨l, ⟨i, hi, rfl⟩, hmem⟩ := h
  simp only [List.mem_map, List.mem_range] at hmem
  obtain ⟨j, hj, rfl⟩ := hmem
  exact ⟨(i : Int), (j : Int), by omega, by omega, by omega, by omega, rfl⟩

/-! ## Claims about the partition and the request loop -/

/-- C3: for every total call count `T ≥ 0` and thread count `N ≥ 1`, with
base `T / N` and remainder `T % N`, `main` assigns base + 1 calls to every
thread whose index is below the remainder and base calls to the others; the
assignments handed to the `N` threads sum to `T`, and two assignments differ
by at most 1. -/
theorem partition_fair (T N : Int) (hT : 0 ≤ T) (hN : 1 ≤ N) :
    (∀ i : Int, 0 ≤ i → i < N →
      numCalls T N i = if i < T % N then T / N + 1 else T / N) ∧
    (∀ cfg : RunConfig, cfg.totalCalls = T → cfg.numThreads = N →
      (dispatch cfg).length = N.toNat ∧
      ((dispatch cfg).map (fun d => d.numCalls)).sum = T) ∧
    (assignments T N).sum = T ∧
    (∀ i j : Int, 0 ≤ i → i < N → 0 ≤ j → j < N →
      |numCalls T N i - numCalls T N j| ≤ 1) := by
  refine ⟨fun i _ _ => numCalls_eq T N i hT hN, ?_, assignments_sum T N hT hN,
    fun i j _ _ _ _ => numCalls_le_one_apart T N i j hT hN⟩
  intro cfg h1 h2
  constructor
  · simp [dispatch, h2]
  · rw [dispatch_numCalls, h1, h2]
    exact assignments_sum T N hT hN

/-- C3 at `T = 10`, `N = 3`: the assignments are 4, 3, 3, they sum to 10 and
the first and the last differ by 1. -/
theorem partition_fair_witness :
    (0 : Int) ≤ 10 ∧ (1 : Int) ≤ 3 ∧ assignments 10 3 = [4, 3, 3] ∧
    (assignments 10 3).sum = 10 ∧ |numCalls 10 3 0 - numCalls 10 3 2| ≤ 1 :=
  ⟨by decide, by decide, by decide,
    (partition_fair 10 3 (by decide) (by decide)).2.2.1,
    (partition_fair 10 3 (by decide) (by decide)).2.2.2 0 2
      (by decide) (by decide) (by decide) (by decide)⟩

/-- C10: for every total call count `T ≥ 0` and thread count `N ≥ 1`, every
index `i * numCalls_i + j` that thread `i < N` stores to for a local index
`j < numCalls_i` lies in `[0, T)`, and so does every index stored to during a
full run, whatever the transport does. -/
theorem stores_within_buffer (T N : Int) (hT : 0 ≤ T) (hN : 1 ≤ N) :
    (∀ i j : Int, 0 ≤ i → i < N → 0 ≤ j → j < numCalls T N i →
      0 ≤ i * numCalls T N i + j ∧ i * numCalls T N i + j < T) ∧
    (∀ (strerror : Int → String) (cfg : RunConfig) (transport : Int → Nat → Transfer),
      cfg.totalCalls = T → cfg.numThreads = N →
      ∀ idx ∈ storedIndices strerror cfg transport, 0 ≤ idx ∧ idx < T) := by
  constructor
  · intro i j hi0 hiN hj0 hj
    exact slot_in_bounds T N i j hT hN hi0 hiN hj0 hj
  · intro strerror cfg transport h1 h2 idx hidx
    rw [storedIndices_eq, h1, h2] at hidx
    obtain ⟨i, j, hi0, hiN, hj0, hj, rfl⟩ := mem_writtenSlots T N idx hidx
    exact slot_in_bounds T N i j hT hN hi0 hiN hj0 hj

/-- C10 at `T = 5`, `N = 2`: the last store of thread 1 goes to index 3. -/
theorem stores_within_buffer_witness :
    (0 : Int) ≤ 1 * numCalls 5 2 1 + 1 ∧ 1 * numCalls 5 2 1 + 1 < 5 :=
  (stores_within_buffer 5 2 (by decide) (by decide)).1 1 1
    (by decide) (by decide) (by decide) (by decide)

/-- C4: whatever `numCalls` is and whatever the transport answers, `fetch_data`
calls `curl_easy_perform` exactly `numCalls` times (never when `numCalls` is
negative), request `k` meeting the `k`-th answer; it prints exactly one line
per request, the success line with the status phrase when the answer is
`CURLE_OK` and the failure line with the transport's error text otherwise;
and it stores the elapsed time of request `k`, the seconds between the two
clock readings times 1000 plus their nanoseconds apart divided by 1000000, to
local slot `k`, whether the request succeeded or not. -/
theorem fetch_data_records_every_request (strerror : Int → String)
    (data : thread_data_t) (transport : Nat → Transfer) :
    (fetch_data strerror data transport).performed = data.numCalls.toNat ∧
    (fetch_data strerror data transport).log.length = data.numCalls.toNat ∧
    (fetch_data strerror data transport).stores.length = data.numCalls.toNat ∧
    (∀ k : Nat, k < data.numCalls.toNat →
      (fetch_data strerror data transport).log[k]? =
        some (if (transport k).res = CURLE_OK then
            LogLine.success data.threadID (k : Int)
              (http_status_phrase (transport k).responseCode)
              ((((transport k).finish.tv_sec : Rat) - ((transport k).start.tv_sec : Rat)) * 1000 +
                (((transport k).finish.tv_nsec : Rat) - ((transport k).start.tv_nsec : Rat)) /
                  1000000)
          else
            LogLine.failed data.threadID (k : Int) (strerror (transport k).res)
              ((((transport k).finish.tv_sec : Rat) - ((transport k).start.tv_sec : Rat)) * 1000 +
                (((transport k).finish.tv_nsec : Rat) - ((transport k).start.tv_nsec : Rat)) /
                  1000000)) ∧
      (fetch_data strerror data transport).stores[k]? =
        some (data.responseTimes + (k : Int),
          (((transport k).finish.tv_sec : Rat) - ((transport k).start.tv_sec : Rat)) * 1000 +
            (((transport k).finish.tv_nsec : Rat) - ((transport k).start.tv_nsec : Rat)) /
              1000000)) := by
  unfold fetch_data
  rw [fetch_fold]
  refine ⟨rfl, by simp, by simp, ?_⟩
  intro k hk
  constructor
  · simp [List.getElem?_map, List.getElem?_range hk, expectedLine, time_diff_ms]
  · simp [List.getElem?_map, List.getElem?_range hk, time_diff_ms]

/-- C4 on a worker with three calls whose second request fails; every request
starts at 5 s 999 ms and ends at 6 s 1 ms.  Three requests are performed, the
failure is logged between two successes, and the elapsed time logged and
stored for the failed request is 2 ms, at index 6 + 1 = 7. -/
theorem fetch_data_records_every_request_witness :
    (fetch_data (fun _ => "Timeout was reached") sampleWorker sampleTransport).performed = 3 ∧
    (fetch_data (fun _ => "Timeout was reached") sampleWorker sampleTransport).log[0]? =
      some (LogLine.success 2 0 "200 OK" 2) ∧
    (fetch_data (fun _ => "Timeout was reached") sampleWorker sampleTransport).log[1]? =
      some (LogLine.failed 2 1 "Timeout was reached" 2) ∧
    (fetch_data (fun _ => "Timeout was reached") sampleWorker sampleTransport).stores[1]? =
      some (7, 2) ∧
    (fetch_data (fun _ => "Timeout was reached") sampleWorker sampleTransport).log[2]? =
      some (LogLine.success 2 2 "200 OK" 2) :=
  ⟨(fetch_data_records_every_request _ sampleWorker sampleTransport).1,
    ((fetch_data_records_every_request _ sampleWorker sampleTransport).2.2.2 0
      (by decide)).1.trans
      (by norm_num [sampleWorker, sampleTransport, CURLE_OK]; decide),
    ((fetch_data_records_every_request _ sampleWorker sampleTransport).2.2.2 1
      (by decide)).1.trans
      (by norm_num [sampleWorker, sampleTransport, CURLE_OK]),
    ((fetch_data_records_every_request _ sampleWorker sampleTransport).2.2.2 1
      (by decide)).2.trans
      (by norm_num [sampleWorker, sampleTransport]),
    ((fetch_data_records_every_request _ sampleWorker sampleTransport).2.2.2 2
      (by decide)).1.trans
      (by norm_num [sampleWorker, sampleTransport, CURLE_OK]; decide)⟩

/-- C2 at `T = 5`, `N = 2`: thread 0 is assigned 3 calls, but thread 1 is
handed index `1 * 2 = 2`; and with the defaults `T = 10000`, `N = 12`, the
four threads before thread 4 are assigned `4 * 834 = 3336` calls, but thread 4
is handed index `4 * 833 = 3332`. -/
theorem offset_is_not_sum_of_prior :
    priorCalls 5 2 1 = 3 ∧ responseTimesIndex 5 2 1 = 2 ∧
    (threadData { url := "http://h", totalCalls := 5, numThreads := 2, sleepTime := 0,
                  requestTimeOut := 10000, connectTimeOut := 30000, reuseConnects := 0,
                  keepConnectsOpen := 0 } 1).responseTimes = 2 ∧
    priorCalls 10000 12 4 = 3336 ∧ responseTimesIndex 10000 12 4 = 3332 := by
  decide

/-- C1 at `T = 5`, `N = 2`: whatever the transport does, a full run stores to
the indices 0, 1, 2 (thread 0) and 2, 3 (thread 1): index 2 is stored to
twice and index 4 never. -/
theorem slot_written_twice_and_slot_unwritten (strerror : Int → String)
    (transport : Int → Nat → Transfer) :
    storedIndices strerror
      { url := "http://h", totalCalls := 5, numThreads := 2, sleepTime := 0,
        requestTimeOut := 10000, connectTimeOut := 30000, reuseConnects := 0,
        keepConnectsOpen := 0 } transport = [0, 1, 2, 2, 3] ∧
    ([0, 1, 2, 2, 3] : List Int).count 2 = 2 ∧
    ([0, 1, 2, 2, 3] : List Int).count 4 = 0 := by
  rw [storedIndices_eq]
  decide

/-! ## Theorems: the status phrase -/

theorem ltoa_eq_toString (c : Int) : ltoa c = toString c := by
  unfold ltoa
  cases c with
  | ofNat n =>
    have h : ¬ (Int.ofNat n < 0) := by simp
    rw [if_neg h]
    rfl
  | negSucc n =>
    rw [if_pos (Int.negSucc_lt_zero n)]
    rfl

theorem scan_eq_find (p : String) (c : Int) (rows : List status_code_t) :
    http_status_phrase_scan p c rows =
      p ++ " " ++
        (match rows.find? (fun row => decide (row.code = c)) with
         | some row => row.phrase
         | none => "Unknown Status Code") := by
  induction rows with
  | nil =>
    have h : (" " ++ "Unknown Status Code" : String) = " Unknown Status Code" := by decide
    simp [http_status_phrase_scan, String.append_assoc, h]
  | cons row rest ih =>
    unfold http_status_phrase_scan
    by_cases h : row.code = c
    · simp [h]
    · simp [h, ih]

theorem scan_cases (p : String) (c : Int) (rows : List status_code_t) :
    http_status_phrase_scan p c rows = p ++ " Unknown Status Code" ∨
    ∃ row ∈ rows, row.code = c ∧
      http_status_phrase_scan p c rows = (p ++ " ") ++ row.phrase := by
  induction rows with
  | nil => left; rfl
  | cons row rest ih =>
    unfold http_status_phrase_scan
    by_cases h : row.code = c
    · right
      exact ⟨row, List.mem_cons_self _ _, h, by simp [h]⟩
    · rw [if_neg h]
      rcases ih with ih | ⟨r, hr, hc, he⟩
      · left; exact ih
      · right; exact ⟨r, List.mem_cons_of_mem _ hr, hc, he⟩

theorem ltoa_length_le (c : Int) (hlo : LONG_MIN ≤ c) (hhi : c ≤ LONG_MAX) :
    (ltoa c).length ≤ 20 := by
  have habs : c.natAbs < 10 ^ 19 := by
    unfold LONG_MIN at hlo
    unfold LONG_MAX at hhi
    omega
  have hrepr : (Nat.repr c.natAbs).length ≤ 19 :=
    Nat.repr_length c.natAbs 19 (by decide) habs
  unfold ltoa
  split
  · rw [String.length_append]
    have : ("-" : String).length = 1 := by decide
    omega
  · omega

theorem digitChar_ascii : ∀ d < 10, (Nat.digitChar d).toNat < 128 := by decide

theorem toDigitsCore_ascii (fuel : Nat) : ∀ (n : Nat) (ds : List Char),
    (∀ ch ∈ ds, ch.toNat < 128) →
    ∀ ch ∈ Nat.toDigitsCore 10 fuel n ds, ch.toNat < 128 := by
  induction fuel with
  | zero =>
    intro n ds h
    simpa [Nat.toDigitsCore] using h
  | succ f ih =>
    intro n ds h
    have hcons : ∀ ch ∈ Nat.digitChar (n % 10) :: ds, ch.toNat < 128 := by
      intro ch hch
      rcases List.mem_cons.1 hch with rfl | hmem
      · exact digitChar_ascii _ (Nat.mod_lt _ (by decide))
      · exact h ch hmem
    unfold Nat.toDigitsCore
    simp only
    split_ifs
    · exact hcons
    · exact ih _ _ hcons

theorem repr_ascii (n : Nat) : ∀ ch ∈ (Nat.repr n).data, ch.toNat < 128 := by
  unfold Nat.repr Nat.toDigits
  exact toDigitsCore_ascii _ _ _ (by simp)

theorem ltoa_ascii (c : Int) : ∀ ch ∈ (ltoa c).data, ch.toNat < 128 := by
  unfold ltoa
  split
  · intro ch hch
    rw [String.data_append, List.mem_append] at hch
    rcases hch with h | h
    · have hminus : ∀ x ∈ ("-" : String).data, x.toNat < 128 := by decide
      exact hminus ch h
    · exact repr_ascii _ ch h
  · exact repr_ascii _

theorem mapped_phrases_ascii :
    ∀ row ∈ status_code_map, ∀ ch ∈ row.phrase.data, ch.toNat < 128 := by
  decide

theorem http_status_phrase_ascii (c : Int) :
    ∀ ch ∈ (http_status_phrase c).data, ch.toNat < 128 := by
  unfold http_status_phrase
  rcases scan_cases (ltoa c) c status_code_map with h | ⟨row, hrow, _, h⟩
  · rw [h]
    intro ch hch
    rw [String.data_append, List.mem_append] at hch
    rcases hch with h1 | h1
    · exact ltoa_ascii c ch h1
    · have hlit : ∀ x ∈ (" Unknown Status Code" : String).data, x.toNat < 128 := by decide
      exact hlit ch h1
  · rw [h]
    intro ch hch
    rw [String.data_append, String.data_append, List.mem_append, List.mem_append] at hch
    rcases hch with (h1 | h1) | h1
    · exact ltoa_ascii c ch h1
    · have hsp : ∀ x ∈ (" " : String).data, x.toNat < 128 := by decide
      exact hsp ch h1
    · exact mapped_phrases_ascii row hrow ch h1

theorem mapped_rows_fit :
    ∀ row ∈ status_code_map,
      ((ltoa row.code ++ " ") ++ row.phrase).length + 1 ≤
        MAX_RESPONSE_CODE_LENGTH + MAX_RESPONSE_PHRASE_LENGTH := by
  decide

/-! ## Claims about the status phrase -/

/-- C5: for every status code `c`, `http_status_phrase` yields the decimal
rendering of `c`, one space and the phrase of the first row of
`status_code_map` whose code is `c`, or `Unknown Status Code` when no row has
that code; 200, 404 and 418 yield `200 OK`, `404 Not Found` and
`418 Unknown Status Code`; and no code occurs twice in the table. -/
theorem http_status_phrase_resolves :
    (∀ c : Int, http_status_phrase c = specStatusPhrase c) ∧
    http_status_phrase 200 = "200 OK" ∧
    http_status_phrase 404 = "404 Not Found" ∧
    http_status_phrase 418 = "418 Unknown Status Code" ∧
    (status_code_map.map (fun row => row.code)).Nodup := by
  refine ⟨?_, by decide, by decide, by decide, by decide⟩
  intro c
  unfold http_status_phrase specStatusPhrase
  rw [scan_eq_find, ltoa_eq_toString]

/-- C6: for every status code in the range of a 64-bit `long`, zero and
negative codes included, the string `http_status_phrase` builds, together with
its terminating NUL, is at most
`MAX_RESPONSE_CODE_LENGTH + MAX_RESPONSE_PHRASE_LENGTH = 45` characters long,
the size of the buffer allocated at line 131; every character is ASCII, so
the count of characters is the count of bytes. -/
theorem http_status_phrase_fits (c : Int) (hlo : LONG_MIN ≤ c) (hhi : c ≤ LONG_MAX) :
    (http_status_phrase c).length + 1 ≤
      MAX_RESPONSE_CODE_LENGTH + MAX_RESPONSE_PHRASE_LENGTH ∧
    MAX_RESPONSE_CODE_LENGTH + MAX_RESPONSE_PHRASE_LENGTH = 45 ∧
    (∀ ch ∈ (http_status_phrase c).data, ch.toNat < 128) := by
  refine ⟨?_, by decide, http_status_phrase_ascii c⟩
  unfold http_status_phrase
  rcases scan_cases (ltoa c) c status_code_map with h | ⟨row, hrow, hc, h⟩
  · rw [h, String.length_append]
    have h1 := ltoa_length_le c hlo hhi
    have h2 : (" Unknown Status Code" : String).length = 20 := by decide
    have h3 : MAX_RESPONSE_CODE_LENGTH + MAX_RESPONSE_PHRASE_LENGTH = 45 := by decide
    omega
  · rw [h, ← hc]
    exact mapped_rows_fit row hrow

/-- C6 at the most negative 64-bit code: the string has 40 characters. -/
theorem http_status_phrase_fits_witness :
    (http_status_phrase (-9223372036854775808)).length + 1 ≤
      MAX_RESPONSE_CODE_LENGTH + MAX_RESPONSE_PHRASE_LENGTH :=
  (http_status_phrase_fits (-9223372036854775808) (by decide) (by decide)).1

/-! ## Theorems: the receive callbacks -/

theorem size_mul_eq (a b : Nat) : size_mul a b = (b * a) % 2 ^ 64 := by
  unfold size_mul
  rw [Nat.mul_comm]

theorem header_callback_full (c : Chunk) (h : header_t) (hfull : MAX_HEADERS ≤ h.count) :
    header_callback c h = some (h, (c.charSize * c.dataSize) % 2 ^ 64) := by
  unfold header_callback
  simp only
  rw [if_neg (by omega), size_mul_eq]

theorem header_callback_stores (c : Chunk) (h : header_t) (h0 : 0 ≤ h.count)
    (hlt : h.count < MAX_HEADERS) (hm : c.mallocOk = true) :
    header_callback c h =
      some ({ headers := Function.update h.headers h.count.toNat
                (some (strncpy_terminated c.buffer ((c.charSize * c.dataSize) % 2 ^ 64)))
              count := h.count + 1 }, (c.charSize * c.dataSize) % 2 ^ 64) := by
  unfold header_callback storeSlot
  simp [hlt, h0, hm, size_mul_eq c.dataSize c.charSize]

theorem header_callback_drops (c : Chunk) (h : header_t) (h0 : 0 ≤ h.count)
    (hlt : h.count < MAX_HEADERS) (hm : c.mallocOk = false) :
    header_callback c h =
      some ({ headers := Function.update h.headers h.count.toNat none
              count := h.count }, (c.charSize * c.dataSize) % 2 ^ 64) := by
  unfold header_callback storeSlot
  simp [hlt, h0, hm, size_mul_eq c.dataSize c.charSize]

theorem captured_update (slots : Nat → CharPtr) (n : Int) (p : CharPtr) :
    (List.range n.toNat).map (Function.update slots n.toNat p) =
      (List.range n.toNat).map slots := by
  apply List.map_congr_left
  intro j hj
  rw [List.mem_range] at hj
  exact Function.update_noteq (by omega) _ _

theorem header_callback_step (c : Chunk) (h : header_t) (h0 : 0 ≤ h.count)
    (hle : h.count ≤ MAX_HEADERS) :
    ∃ next, header_callback c h = some (next, (c.charSize * c.dataSize) % 2 ^ 64) ∧
      0 ≤ next.count ∧ next.count ≤ MAX_HEADERS := by
  by_cases hlt : h.count < MAX_HEADERS
  · cases hm : c.mallocOk with
    | true =>
      exact ⟨_, header_callback_stores c h h0 hlt hm, by simp only; omega, by simp only; omega⟩
    | false =>
      exact ⟨_, header_callback_drops c h h0 hlt hm, h0, hle⟩
  · exact ⟨h, header_callback_full c h (by omega), h0, hle⟩

theorem deliverHeaders_bounded (chunks : List Chunk) (h : header_t) (h0 : 0 ≤ h.count)
    (hle : h.count ≤ MAX_HEADERS) :
    ∃ last, deliverHeaders chunks h =
        some (last, chunks.map (fun c => (c.charSize * c.dataSize) % 2 ^ 64)) ∧
      0 ≤ last.count ∧ last.count ≤ MAX_HEADERS := by
  induction chunks generalizing h with
  | nil => exact ⟨h, rfl, h0, hle⟩
  | cons c cs ih =>
    obtain ⟨next, hstep, hn0, hnle⟩ := header_callback_step c h h0 hle
    obtain ⟨last, hrun, hl0, hlle⟩ := ih next hn0 hnle
    refine ⟨last, ?_, hl0, hlle⟩
    simp [deliverHeaders, hstep, hrun]

theorem body_callback_full (c : Chunk) (b : body_t) (hfull : MAX_BODY_PARTS ≤ b.count) :
    body_callback c b = some (b, (c.charSize * c.dataSize) % 2 ^ 64) := by
  unfold body_callback
  simp only
  rw [if_neg (by omega), size_mul_eq]

theorem body_callback_stores (c : Chunk) (b : body_t) (h0 : 0 ≤ b.count)
    (hlt : b.count < MAX_BODY_PARTS) (hm : c.mallocOk = true) :
    body_callback c b =
      some ({ body := Function.update b.body b.count.toNat
                (some (strncpy_terminated c.buffer ((c.charSize * c.dataSize) % 2 ^ 64)))
              count := b.count + 1 }, (c.charSize * c.dataSize) % 2 ^ 64) := by
  unfold body_callback storeSlot
  simp [hlt, h0, hm, size_mul_eq c.dataSize c.charSize]

theorem body_callback_drops (c : Chunk) (b : body_t) (h0 : 0 ≤ b.count)
    (hlt : b.count < MAX_BODY_PARTS) (hm : c.mallocOk = false) :
    body_callback c b =
      some ({ body := Function.update b.body b.count.toNat none
              count := b.count }, (c.charSize * c.dataSize) % 2 ^ 64) := by
  unfold body_callback storeSlot
  simp [hlt, h0, hm, size_mul_eq c.dataSize c.charSize]

theorem body_callback_step (c : Chunk) (b : body_t) (h0 : 0 ≤ b.count)
    (hle : b.count ≤ MAX_BODY_PARTS) :
    ∃ next, body_callback c b = some (next, (c.charSize * c.dataSize) % 2 ^ 64) ∧
      0 ≤ next.count ∧ next.count ≤ MAX_BODY_PARTS := by
  by_cases hlt : b.count < MAX_BODY_PARTS
  · cases hm : c.mallocOk with
    | true =>
      exact ⟨_, body_callback_stores c b h0 hlt hm, by simp only; omega, by simp only; omega⟩
    | false =>
      exact ⟨_, body_callback_drops c b h0 hlt hm, h0, hle⟩
  · exact ⟨b, body_callback_full c b (by omega), h0, hle⟩

theorem deliverBody_bounded (chunks : List Chunk) (b : body_t) (h0 : 0 ≤ b.count)
    (hle : b.count ≤ MAX_BODY_PARTS) :
    ∃ last, deliverBody chunks b =
        some (last, chunks.map (fun c => (c.charSize * c.dataSize) % 2 ^ 64)) ∧
      0 ≤ last.count ∧ last.count ≤ MAX_BODY_PARTS := by
  induction chunks generalizing b with
  | nil => exact ⟨b, rfl, h0, hle⟩
  | cons c cs ih =>
    obtain ⟨next, hstep, hn0, hnle⟩ := body_callback_step c b h0 hle
    obtain ⟨last, hrun, hl0, hlle⟩ := ih next hn0 hnle
    refine ⟨last, ?_, hl0, hlle⟩
    simp [deliverBody, hstep, hrun]

theorem captured_append (slots : Nat → CharPtr) (n : Int) (h0 : 0 ≤ n) (p : CharPtr) :
    (List.range (n + 1).toNat).map (Function.update slots n.toNat p) =
      (List.range n.toNat).map slots ++ [p] := by
  have hn : (n + 1).toNat = n.toNat + 1 := by omega
  rw [hn, List.range_succ, List.map_append, captured_update]
  simp

/-! ## Claim about the receive callbacks -/

/-- C7 (as amended): a header capture that starts with `count = 0`, whatever
its slots hold, takes any sequence of chunks with any allocation outcomes
without a store outside `headers[0 .. 49]`; its count stays within
`0 .. MAX_HEADERS` (= 50); every call returns `charSize * dataSize`, computed
in `size_t`, that is modulo `2 ^ 64`.  A chunk that arrives when the count is
at the bound leaves the capture as it is.  A chunk whose allocation fails is
dropped: the count and the captured chunks `headers[0 .. count-1]` stay as
they are, and the slot `headers[count]` is overwritten with `NULL`.  A chunk
that is stored goes to `headers[count]` and the count grows by one.  The same
holds for a body capture with `MAX_BODY_PARTS` (= 1). -/
theorem captures_stay_bounded :
    MAX_HEADERS = 50 ∧ MAX_BODY_PARTS = 1 ∧
    (∀ (slots : Nat → CharPtr) (chunks : List Chunk),
      ∃ last, deliverHeaders chunks { headers := slots, count := 0 } =
          some (last, chunks.map (fun c => (c.charSize * c.dataSize) % 2 ^ 64)) ∧
        0 ≤ last.count ∧ last.count ≤ MAX_HEADERS) ∧
    (∀ (h : header_t) (c : Chunk), h.count = MAX_HEADERS →
      header_callback c h = some (h, (c.charSize * c.dataSize) % 2 ^ 64)) ∧
    (∀ (h : header_t) (c : Chunk), 0 ≤ h.count → h.count < MAX_HEADERS →
      c.mallocOk = false →
      header_callback c h =
        some ({ headers := Function.update h.headers h.count.toNat none
                count := h.count }, (c.charSize * c.dataSize) % 2 ^ 64) ∧
      header_t.captured { headers := Function.update h.headers h.count.toNat none
                          count := h.count } = h.captured) ∧
    (∀ (h : header_t) (c : Chunk), 0 ≤ h.count → h.count < MAX_HEADERS →
      c.mallocOk = true →
      header_callback c h =
        some ({ headers := Function.update h.headers h.count.toNat
                  (some (strncpy_terminated c.buffer ((c.charSize * c.dataSize) % 2 ^ 64)))
                count := h.count + 1 }, (c.charSize * c.dataSize) % 2 ^ 64) ∧
      header_t.captured
          { headers := Function.update h.headers h.count.toNat
              (some (strncpy_terminated c.buffer ((c.charSize * c.dataSize) % 2 ^ 64)))
            count := h.count + 1 } =
        h.captured ++
          [some (strncpy_terminated c.buffer ((c.charSize * c.dataSize) % 2 ^ 64))]) ∧
    (∀ (slots : Nat → CharPtr) (chunks : List Chunk),
      ∃ last, deliverBody chunks { body := slots, count := 0 } =
          some (last, chunks.map (fun c => (c.charSize * c.dataSize) % 2 ^ 64)) ∧
        0 ≤ last.count ∧ last.count ≤ MAX_BODY_PARTS) ∧
    (∀ (b : body_t) (c : Chunk), b.count = MAX_BODY_PARTS →
      body_callback c b = some (b, (c.charSize * c.dataSize) % 2 ^ 64)) ∧
    (∀ (b : body_t) (c : Chunk), 0 ≤ b.count → b.count < MAX_BODY_PARTS →
      c.mallocOk = false →
      body_callback c b =
        some ({ body := Function.update b.body b.count.toNat none
                count := b.count }, (c.charSize * c.dataSize) % 2 ^ 64) ∧
      body_t.captured { body := Function.update b.body b.count.toNat none
                        count := b.count } = b.captured) ∧
    (∀ (b : body_t) (c : Chunk), 0 ≤ b.count → b.count < MAX_BODY_PARTS →
      c.mallocOk = true →
      body_callback c b =
        some ({ body := Function.update b.body b.count.toNat
                  (some (strncpy_terminated c.buffer ((c.charSize * c.dataSize) % 2 ^ 64)))
                count := b.count + 1 }, (c.charSize * c.dataSize) % 2 ^ 64) ∧
      body_t.captured
          { body := Function.update b.body b.count.toNat
              (some (strncpy_terminated c.buffer ((c.charSize * c.dataSize) % 2 ^ 64)))
            count := b.count + 1 } =
        b.captured ++
          [some (strncpy_terminated c.buffer ((c.charSize * c.dataSize) % 2 ^ 64))]) := by
  refine ⟨rfl, rfl, ?_, ?_, ?_, ?_, ?_, ?_, ?_, ?_⟩
  · intro slots chunks
    exact deliverHeaders_bounded chunks _ (le_refl _) (show (0 : Int) ≤ MAX_HEADERS by decide)
  · intro h c hfull
    exact header_callback_full c h (le_of_eq hfull.symm)
  · intro h c h0 hlt hm
    exact ⟨header_callback_drops c h h0 hlt hm, captured_update _ _ _⟩
  · intro h c h0 hlt hm
    exact ⟨header_callback_stores c h h0 hlt hm, captured_append _ _ h0 _⟩
  · intro slots chunks
    exact deliverBody_bounded chunks _ (le_refl _) (show (0 : Int) ≤ MAX_BODY_PARTS by decide)
  · intro b c hfull
    exact body_callback_full c b (le_of_eq hfull.symm)
  · intro b c h0 hlt hm
    exact ⟨body_callback_drops c b h0 hlt hm, captured_update _ _ _⟩
  · intro b c h0 hlt hm
    exact ⟨body_callback_stores c b h0 hlt hm, captured_append _ _ h0 _⟩

/-- C7 (as amended) on two deliveries.  A body capture that already holds its
one part drops a chunk of three bytes: the capture is returned as it is and
the callback reports 3.  An empty header capture stores a chunk of three
bytes as the four bytes `a b c NUL` and reports 3. -/
theorem captures_stay_bounded_witness :
    body_callback { buffer := [97, 98, 99], charSize := 1, dataSize := 3, mallocOk := true }
        { body := fun _ => some [120, 0], count := 1 } =
      some ({ body := fun _ => some [120, 0], count := 1 }, 3) ∧
    (header_callback { buffer := [97, 98, 99], charSize := 1, dataSize := 3, mallocOk := true }
        { headers := fun _ => none, count := 0 }).map
        (fun r => (r.1.count, r.1.captured, r.2)) =
      some (1, [some [97, 98, 99, 0]], 3) :=
  ⟨captures_stay_bounded.2.2.2.2.2.2.2.1 { body := fun _ => some [120, 0], count := 1 }
      { buffer := [97, 98, 99], charSize := 1, dataSize := 3, mallocOk := true } (by decide),
    (congrArg (Option.map (fun r => (r.1.count, r.1.captured, r.2)))
      (captures_stay_bounded.2.2.2.2.2.1 { headers := fun _ => none, count := 0 }
        { buffer := [97, 98, 99], charSize := 1, dataSize := 3, mallocOk := true }
        (by decide) (by decide) (by decide)).1).trans (by decide)⟩

/-- C7 as stated fails on a failed allocation: a header capture with
`count = 0` whose slot `headers[0]` holds a stale pointer is handed back with
`headers[0]` overwritten by `NULL` (line 71); the count stays 0 and the
callback reports the chunk length 3. -/
theorem failed_allocation_overwrites_slot :
    (header_callback { buffer := [97, 98, 99], charSize := 1, dataSize := 3, mallocOk := false }
        { headers := fun _ => some [120, 0], count := 0 }).map
        (fun r => (r.1.count, r.1.headers 0, r.2)) =
      some (0, none, 3) ∧
    header_t.headers { headers := fun _ => some [120, 0], count := 0 } 0 ≠ none := by
  decide

/-! ## Theorems: the argument handling -/

theorem digit_not_space_or_sign (c : Char) (h : c.isDigit = true) :
    isspace c = false ∧ c ≠ '-' ∧ c ≠ '+' := by
  have hne : ∀ d : Char, d.isDigit = false → c ≠ d := by
    intro d hd heq
    rw [heq, hd] at h
    exact Bool.false_ne_true h
  have h1 := hne ' ' (by decide)
  have h2 := hne '\t' (by decide)
  have h3 := hne '\n' (by decide)
  have h4 := hne '\x0b' (by decide)
  have h5 := hne '\x0c' (by decide)
  have h6 := hne '\r' (by decide)
  refine ⟨?_, hne '-' (by decide), hne '+' (by decide)⟩
  simp [isspace, h1, h2, h3, h4, h5, h6]

theorem magnitude_cast (ds : List Char) (acc : Nat) :
    ds.foldl (fun (a : Int) d => a * 10 + ((d.toNat - '0'.toNat : Nat) : Int)) (acc : Int) =
      ((ds.foldl (fun (a : Nat) d => a * 10 + (d.toNat - '0'.toNat)) acc : Nat) : Int) := by
  induction ds generalizing acc with
  | nil => rfl
  | cons d ds ih =>
    simp only [List.foldl_cons]
    rw [← ih]
    push_cast
    rfl

/-- On a non-empty string of digits whose value fits a `long`, `strtol`
consumes the whole string and returns its value. -/
theorem strtol_digits (l : List Char) (hne : l ≠ []) (hall : ∀ c ∈ l, c.isDigit = true)
    (hfit : (decimalValue l : Int) ≤ LONG_MAX) :
    strtol l = { val := (decimalValue l : Int), endOffset := l.length, errno := 0 } := by
  cases l with
  | nil => exact absurd rfl hne
  | cons d rest =>
    have hd := digit_not_space_or_sign d (hall d (List.mem_cons_self _ _))
    have htake : (d :: rest).takeWhile isspace = [] := by
      rw [List.takeWhile_cons, hd.1]
      rfl
    have hdrop : (d :: rest).dropWhile isspace = d :: rest := by
      rw [List.dropWhile_cons, hd.1]
      rfl
    have hdigits : (d :: rest).takeWhile Char.isDigit = d :: rest :=
      List.takeWhile_eq_self_iff.2 hall
    have hmag := magnitude_cast (d :: rest) 0
    have hmin : ¬ ((decimalValue (d :: rest) : Int) < LONG_MIN) := by
      unfold LONG_MIN
      omega
    have hminus : (some d == some '-') = false := by simp [hd.2.1]
    have hplus : (some d == some '+') = false := by simp [hd.2.2]
    unfold strtol
    simp only [htake, hdrop, List.head?_cons, hminus, hplus, Bool.or_self, Bool.false_eq_true,
      if_false, List.drop_zero, hdigits, List.isEmpty_cons, List.length_nil, Nat.zero_add]
    unfold decimalValue at hfit hmin ⊢
    simp only [Nat.cast_zero] at hmag
    rw [hmag, if_neg (not_lt.2 hfit), if_neg hmin]

/-- A count written as a positive `int` is what `parse_int` returns. -/
theorem parse_int_written (s : String) (h : writtenPositiveInt s = true) :
    parse_int s = some (decimalValue s.toList : Int) ∧
    (0 : Int) < (decimalValue s.toList : Int) := by
  unfold writtenPositiveInt at h
  simp only [Bool.and_eq_true, Bool.not_eq_true', List.isEmpty_eq_false, List.all_eq_true,
    decide_eq_true_eq] at h
  obtain ⟨⟨⟨hne, hall⟩, hpos⟩, hmax⟩ := h
  have hfit : (decimalValue s.toList : Int) ≤ LONG_MAX := by
    unfold INT_MAX at hmax
    unfold LONG_MAX
    omega
  have hlen : 0 < s.toList.length := List.length_pos.2 hne
  refine ⟨?_, by omega⟩
  unfold parse_int
  simp only [strtol_digits s.toList hne hall hfit]
  rw [if_neg (by omega)]
  have hconv : longToInt (decimalValue s.toList : Int) = (decimalValue s.toList : Int) := by
    unfold longToInt
    unfold INT_MAX at hmax
    omega
  rw [hconv]

theorem suppliedCountsInRange_cons (a v : String) (rest : List String)
    (h : suppliedCountsInRange (a :: v :: rest) = true) :
    ((a = "-totalCalls" ∨ a = "-numThreads") → writtenPositiveInt v = true) ∧
    suppliedCountsInRange (v :: rest) = true := by
  unfold suppliedCountsInRange at h ⊢
  simp only [List.tail_cons, List.zip_cons_cons, List.all_cons, Bool.and_eq_true] at h ⊢
  refine ⟨?_, h.2⟩
  intro ha
  have h1 := h.1
  rcases ha with ha | ha <;> simpa [ha] using h1

theorem suppliedCountsInRange_tail (a : String) (rest : List String)
    (h : suppliedCountsInRange (a :: rest) = true) :
    suppliedCountsInRange rest = true := by
  cases rest with
  | nil => rfl
  | cons v rest' => exact (suppliedCountsInRange_cons a v rest' h).2

theorem flagArgument_counts (a : String) (l : Locals) :
    (flagArgument a l).totalCalls = l.totalCalls ∧
    (flagArgument a l).numThreads = l.numThreads := by
  unfold flagArgument
  split
  · exact ⟨rfl, rfl⟩
  · split <;> exact ⟨rfl, rfl⟩

theorem argLoop_positive (n : Nat) :
    ∀ (args : List String) (isFirst : Bool) (l last : Locals),
      args.length ≤ n →
      suppliedCountsInRange args = true →
      0 < l.totalCalls → 0 < l.numThreads →
      argLoop isFirst args l = .ok last →
      0 < last.totalCalls ∧ 0 < last.numThreads := by
  induction n with
  | zero =>
    intro args isFirst l last hlen _ h1 h2 h
    cases args with
    | nil =>
      simp only [argLoop, Except.ok.injEq] at h
      subst h
      exact ⟨h1, h2⟩
    | cons a rest => simp at hlen
  | succ n ih =>
    intro args isFirst l last hlen hp h1 h2 h
    cases args with
    | nil =>
      simp only [argLoop, Except.ok.injEq] at h
      subst h
      exact ⟨h1, h2⟩
    | cons a rest =>
      have hrestlen : rest.length ≤ n := by
        simp only [List.length_cons] at hlen
        omega
      have hf := flagArgument_counts a l
      cases rest with
      | nil =>
        simp only [argLoop] at h
        split_ifs at h with hhelp hfirst
        · simp only [Except.ok.injEq] at h
          subst h
          exact ⟨h1, h2⟩
        · simp only [Except.ok.injEq] at h
          subst h
          rw [hf.1, hf.2]
          exact ⟨h1, h2⟩
      | cons v rest' =>
        have hpair := suppliedCountsInRange_cons a v rest' hp
        have hp2 : suppliedCountsInRange rest' = true :=
          suppliedCountsInRange_tail v rest' hpair.2
        have hlen2 : rest'.length ≤ n := by
          simp only [List.length_cons] at hrestlen
          omega
        rw [argLoop] at h
        split_ifs at h with hhelp hfirst ht hn hs hr hc
        · refine ih (v :: rest') false _ last hrestlen hpair.2 ?_ ?_ h
          · exact h1
          · exact h2
        · cases hv : parse_int v with
          | none => simp [hv] at h
          | some x =>
            simp only [hv] at h
            refine ih rest' false _ last hlen2 hp2 ?_ ?_ h
            · have hw := parse_int_written v (hpair.1 (Or.inl ht))
              rw [hv] at hw
              have hx := Option.some.inj hw.1
              simp only
              rw [hx]
              exact hw.2
            · exact h2
        · cases hv : parse_int v with
          | none => simp [hv] at h
          | some x =>
            simp only [hv] at h
            refine ih rest' false _ last hlen2 hp2 ?_ ?_ h
            · exact h1
            · have hw := parse_int_written v (hpair.1 (Or.inr hn))
              rw [hv] at hw
              have hx := Option.some.inj hw.1
              simp only
              rw [hx]
              exact hw.2
        · cases hv : parse_int v with
          | none => simp [hv] at h
          | some x =>
            simp only [hv] at h
            refine ih rest' false _ last hlen2 hp2 ?_ ?_ h
            · exact h1
            · exact h2
        · cases hv : parse_int v with
          | none => simp [hv] at h
          | some x =>
            simp only [hv] at h
            refine ih rest' false _ last hlen2 hp2 ?_ ?_ h
            · exact h1
            · exact h2
        · cases hv : parse_int v with
          | none => simp [hv] at h
          | some x =>
            simp only [hv] at h
            refine ih rest' false _ last hlen2 hp2 ?_ ?_ h
            · exact h1
            · exact h2
        · refine ih (v :: rest') false _ last hrestlen hpair.2 ?_ ?_ h
          · rw [hf.1]; exact h1
          · rw [hf.2]; exact h2

/-! ## Claims about the argument handling -/

/-- C8 (as amended): `main` checks no range and converts the parsed `long` to
`int`; a command line it accepts has a positive total call count and a
positive thread count whenever every argument that directly follows
`-totalCalls` or `-numThreads` on it consists of decimal digits only and
denotes a number from 1 to `INT_MAX` (2147483647), in particular when neither
option is given and the defaults 10000 and 12 apply. -/
theorem accepted_counts_positive (argv : List String) (cfg : RunConfig)
    (h : main argv = .run cfg) (hp : suppliedCountsInRange argv = true) :
    0 < cfg.totalCalls ∧ 0 < cfg.numThreads := by
  unfold main at h
  split_ifs at h with hargc
  cases argv with
  | nil => simp at hargc
  | cons prog args =>
    have hp2 := suppliedCountsInRange_tail prog args hp
    simp only [List.drop_succ_cons, List.drop_zero] at h
    cases hloop : argLoop true args initialLocals with
    | error status => simp [hloop] at h
    | ok l =>
      have hpos := argLoop_positive args.length args true initialLocals l (le_refl _) hp2
        (by decide) (by decide) hloop
      simp only [hloop] at h
      cases hurl : l.url with
      | none => simp [hurl] at h
      | some url =>
        simp only [hurl] at h
        split_ifs at h
        simp only [MainResult.run.injEq] at h
        subst h
        exact hpos

/-- C8 (as amended) on a command line that asks for 4 threads. -/
theorem accepted_counts_positive_witness :
    main ["api-tester", "http://h", "-numThreads", "4"] =
      .run { url := "http://h", totalCalls := 10000, numThreads := 4, sleepTime := 0,
             requestTimeOut := 10000, connectTimeOut := 30000, reuseConnects := 0,
             keepConnectsOpen := 0 } ∧
    suppliedCountsInRange ["api-tester", "http://h", "-numThreads", "4"] = true ∧
    ((0 : Int) < 10000 ∧ (0 : Int) < 4) :=
  ⟨by decide, by decide,
    accepted_counts_positive ["api-tester", "http://h", "-numThreads", "4"]
      { url := "http://h", totalCalls := 10000, numThreads := 4, sleepTime := 0,
        requestTimeOut := 10000, connectTimeOut := 30000, reuseConnects := 0,
        keepConnectsOpen := 0 } (by decide) (by decide)⟩

/-- Why the bound `INT_MAX` is needed: `-numThreads 4294967296` is written as a
positive number, `strtol` reads it without error, the conversion to `int` at
line 60 makes it 0, and `main` accepts it with a thread count of 0. -/
theorem wrapped_threads_accepted :
    parse_int "4294967296" = some 0 ∧
    writtenPositiveInt "4294967296" = false ∧
    main ["api-tester", "http://h", "-numThreads", "4294967296"] =
      .run { url := "http://h", totalCalls := 10000, numThreads := 0, sleepTime := 0,
             requestTimeOut := 10000, connectTimeOut := 30000, reuseConnects := 0,
             keepConnectsOpen := 0 } := by
  decide

/-- C8 as stated fails: `main` accepts `-numThreads 0` and goes on with a
thread count of 0, which is not positive. -/
theorem zero_threads_accepted :
    main ["api-tester", "http://h", "-numThreads", "0"] =
      .run { url := "http://h", totalCalls := 10000, numThreads := 0, sleepTime := 0,
             requestTimeOut := 10000, connectTimeOut := 30000, reuseConnects := 0,
             keepConnectsOpen := 0 } ∧
    ¬ ((0 : Int) < 10000 ∧ (0 : Int) < 0) := by
  decide

/-- C9 at `-requestTimeOut 5000` without `-connectTimeOut`: the run uses a
request timeout of 5000 ms and a connect timeout of 30000 ms, which is not
three times 5000. -/
theorem connect_timeout_keeps_initial_value :
    supplies ["api-tester", "http://h", "-requestTimeOut", "5000"] "-connectTimeOut" = false ∧
    main ["api-tester", "http://h", "-requestTimeOut", "5000"] =
      .run { url := "http://h", totalCalls := 10000, numThreads := 12, sleepTime := 0,
             requestTimeOut := 5000, connectTimeOut := 30000, reuseConnects := 0,
             keepConnectsOpen := 0 } ∧
    curlTimeouts { url := "http://h", totalCalls := 10000, numThreads := 12, sleepTime := 0,
                   requestTimeOut := 5000, connectTimeOut := 30000, reuseConnects := 0,
                   keepConnectsOpen := 0 } = (5000, 30000) ∧
    (30000 : Int) ≠ 3 * 5000 := by
  decide

end ApiTester
